import Mathlib

/-!
Verification development for the `git-profile-switcher` repository
(`src/git_profile_switcher/cli.py` and `src/git_profile_switcher/gui.py`).

The Python program is shallowly embedded: file contents are `String`s
(manipulated through their underlying `List Char`, which evaluates in the
kernel), the profile-store directory is an association list of regular files
plus a list of subdirectory names, and the external `git` executable's global
configuration is a small record.  Every command of the dispatcher becomes a
pure function from a `World` to an `Outcome` carrying the successor world.

Python string primitives (`str.strip`, `str.lower`, `os.path.splitext`,
`textwrap.dedent`, `str.split('\n')`, lexicographic ordering of `list.sort`)
are modelled character-exactly for the ASCII texts this program handles.
-/

/-- Whitespace characters removed by Python's `str.strip()` (ASCII range). -/
def pyWs (c : Char) : Bool :=
  c = ' ' || c = '\t' || c = '\n' || c = '\r' || c = '\x0b' || c = '\x0c'

/-- `str.strip()` on a character list: drop leading and trailing whitespace. -/
def pyStripC (cs : List Char) : List Char :=
  ((cs.dropWhile pyWs).reverse.dropWhile pyWs).reverse

/-- `str.strip()` on a `String`. -/
def pyStrip (s : String) : String := ⟨pyStripC s.data⟩

/-- `str.lower()` (the program only lowercases ASCII option keys). -/
def pyLower (s : String) : String := ⟨s.data.map Char.toLower⟩

/-- Python string comparison (`<=`) : lexicographic by code point. -/
def lexLeb : List Char → List Char → Bool
  | [], _ => true
  | _ :: _, [] => false
  | a :: as, b :: bs => if a = b then lexLeb as bs else decide (a < b)

/-- The ordering used by Python's `list.sort()` on strings. -/
def strLe (a b : String) : Prop := lexLeb a.data b.data = true

instance : DecidableRel strLe := fun _ _ => instDecidableEqBool _ _

theorem lexLeb_total (a b : List Char) : lexLeb a b = true ∨ lexLeb b a = true := by
  induction a generalizing b with
  | nil => left; rfl
  | cons x xs ih =>
    cases b with
    | nil => right; rfl
    | cons y ys =>
      by_cases hxy : x = y
      · subst hxy
        rcases ih ys with h | h
        · left; simpa [lexLeb] using h
        · right; simpa [lexLeb] using h
      · rcases lt_trichotomy x y with h | h | h
        · left; simp [lexLeb, hxy, h]
        · exact absurd h hxy
        · right; simp [lexLeb, Ne.symm hxy, h]

theorem lexLeb_trans {a b c : List Char} (hab : lexLeb a b = true)
    (hbc : lexLeb b c = true) : lexLeb a c = true := by
  induction a generalizing b c with
  | nil => rfl
  | cons x xs ih =>
    cases b with
    | nil => simp [lexLeb] at hab
    | cons y ys =>
      cases c with
      | nil => simp [lexLeb] at hbc
      | cons z zs =>
        by_cases hxy : x = y
        · subst hxy
          by_cases hyz : x = z
          · subst hyz
            simp [lexLeb] at hab hbc ⊢
            exact ih hab hbc
          · simp [lexLeb, hyz] at hbc ⊢
            exact hbc
        · by_cases hyz : y = z
          · subst hyz
            simp [lexLeb, hxy] at hab ⊢
            exact hab
          · simp [lexLeb, hxy] at hab
            simp [lexLeb, hyz] at hbc
            have hxz : x < z := lt_trans hab hbc
            simp [lexLeb, ne_of_lt hxz, hxz]

instance : IsTotal String strLe := ⟨fun a b => lexLeb_total a.data b.data⟩

instance : IsTrans String strLe := ⟨fun _ _ _ => lexLeb_trans⟩

/-- `list.sort()` on Python strings: the (unique, since the order is total and
antisymmetric on code points) ascending reordering, modelled by insertion
sort. -/
def pySort (l : List String) : List String := List.insertionSort strLe l

/-- `os.path.splitext(f)[0]`: cut at the last dot, except that a basename
consisting of leading dots only up to that position has no extension. -/
def splitextStem (s : String) : String :=
  let cs := s.data
  let dotIdxs := (List.range cs.length).filter fun i => cs.getD i ' ' = '.'
  match dotIdxs.getLast? with
  | none => s
  | some k =>
      if (List.range k).all (fun i => cs.getD i ' ' = '.') then s
      else ⟨cs.take k⟩

/-- `f.endswith(".gitconfig")`. -/
def isProfileFileName (f : String) : Bool :=
  List.isSuffixOf ".gitconfig".data f.data

/-- The profile-store directory: regular files (name, contents) plus the
names of subdirectory entries.  `os.listdir` returns all entry names;
`os.path.isfile` distinguishes the two. -/
structure Store where
  files : List (String × String)
  dirs : List String
deriving DecidableEq, Repr

/-- `os.listdir(CONFIG_DIR)`. -/
def Store.listdir (st : Store) : List String := st.files.map Prod.fst ++ st.dirs

/-- `os.path.isfile(os.path.join(CONFIG_DIR, f))`. -/
def Store.isfile (st : Store) (f : String) : Bool :=
  (st.files.map Prod.fst).contains f

/-- Contents of regular file `f` in the store, if present. -/
def Store.lookupFile (st : Store) (f : String) : Option String :=
  st.files.lookup f

/-- `list_profiles()` from `cli.py`: keep the `.gitconfig` regular files,
sort the file names, then strip the extension of each. -/
def list_profiles (st : Store) : List String :=
  let files := st.listdir.filter fun f => isProfileFileName f && st.isfile f
  (pySort files).map splitextStem

/-! ### Line splitting, `textwrap.dedent` and the profile file template -/

/-- `text.split('\n')` on a character list. -/
def splitLinesC : List Char → List (List Char)
  | [] => [[]]
  | c :: rest =>
      if c = '\n' then [] :: splitLinesC rest
      else
        match splitLinesC rest with
        | [] => [[c]]
        | l :: ls => (c :: l) :: ls

/-- `'\n'.join(lines)` on character lists. -/
def joinLinesC : List (List Char) → List Char
  | [] => []
  | [l] => l
  | l :: ls => l ++ '\n' :: joinLinesC ls

/-- A line made of spaces/tabs only (the `^[ \t]+$` lines that
`textwrap.dedent` blanks away). -/
def isWsOnlyLine (l : List Char) : Bool :=
  !l.isEmpty && l.all fun c => c = ' ' || c = '\t'

/-- Leading run of spaces/tabs of a line. -/
def leadingWs (l : List Char) : List Char :=
  l.takeWhile fun c => c = ' ' || c = '\t'

/-- Longest common prefix of two character lists. -/
def commonPfx : List Char → List Char → List Char
  | a :: as, b :: bs => if a = b then a :: commonPfx as bs else []
  | _, _ => []

/-- The margin `textwrap.dedent` computes: fold the longest common prefix of
the indents of all lines that still have content (its incremental
`startswith`-based loop computes exactly this). -/
def dedentMargin (ls : List (List Char)) : Option (List Char) :=
  ls.foldl
    (fun m l =>
      if l.isEmpty then m
      else
        match m with
        | none => some (leadingWs l)
        | some p => some (commonPfx p (leadingWs l)))
    none

/-- `textwrap.dedent`: blank the whitespace-only lines, compute the common
margin, and remove it from every line that starts with it. -/
def dedentC (cs : List Char) : List Char :=
  let ls := (splitLinesC cs).map fun l => if isWsOnlyLine l then [] else l
  match dedentMargin ls with
  | none => joinLinesC ls
  | some m =>
      if m.isEmpty then joinLinesC ls
      else joinLinesC (ls.map fun l => if m.isPrefixOf l then l.drop m.length else l)

/-- The f-string template `cmd_create` builds before `dedent(...).lstrip("\n")`
(the triple-quoted literal sits at an 8-space indent in the source). -/
def createRawTemplate (n e ed : String) : String :=
  "\n        [user]\n            name = " ++ n ++
    "\n            email = " ++ e ++
    "\n        [core]\n            editor = " ++ ed ++ "\n        "

/-- The file content `cmd_create` writes:
`dedent(template).lstrip("\n")`. -/
def createContent (n e ed : String) : String :=
  ⟨(dedentC (createRawTemplate n e ed).data).dropWhile (· = '\n')⟩

/-- The fixed section layout of a created profile, as the spec states it:
`[user]` with `name` and `email`, then `[core]` with `editor`. -/
def profileContent (n e ed : String) : String :=
  "[user]\n    name = " ++ n ++ "\n    email = " ++ e ++
    "\n[core]\n    editor = " ++ ed ++ "\n"

/-! ### `configparser` model

`cmd_use` reads a profile with `configparser.ConfigParser().read(path)` and
then `cfg.get(section, key, fallback=None)`.  The parser below models the
stdlib parser for the flat files this tool reads and writes: full-line
comments, `[header]` lines (`SECTCRE` matches a prefix of the stripped line;
the header is everything up to the first `]`), and `key = value` / `key :
value` lines split at the first delimiter, keys lowercased by `optionxform`,
values stripped.  In strict mode duplicate sections or options, a key-value
line before any section header, and an undelimited line are errors, which
`ConfigParser.read` raises; `none` models that raised exception.  Not
modelled (out of scope of every claim): continuation lines indented deeper
than their key, the `[DEFAULT]` section fallback of `get`, and
`BasicInterpolation` of `%` signs in values. -/

structure INIFile where
  sections : List (String × List (String × String))
deriving DecidableEq, Repr

/-- `cfg.has_section(sec)`. -/
def INIFile.hasSection (ini : INIFile) (sec : String) : Bool :=
  (ini.sections.lookup sec).isSome

/-- `cfg.get(sec, key, fallback=None)`. -/
def INIFile.get (ini : INIFile) (sec key : String) : Option String :=
  (ini.sections.lookup sec).bind fun kvs => kvs.lookup key

/-- `SECTCRE` match on the stripped line: `[` then a nonempty run of
non-`]` characters, then `]` (anything after is ignored). -/
def headerOf (v : List Char) : Option String :=
  match v with
  | '[' :: rest =>
      let h := rest.takeWhile (· ≠ ']')
      if h.isEmpty then none
      else if (rest.drop h.length).take 1 = [']'] then some ⟨h⟩ else none
  | _ => none

/-- Register a new section; a duplicate is a `DuplicateSectionError`. -/
def addSection (secs : List (String × List (String × String))) (name : String) :
    Option (List (String × List (String × String))) :=
  if (secs.lookup name).isSome then none else some (secs ++ [(name, [])])

/-- Add an option to the current section; a duplicate key in that section is
a `DuplicateOptionError`. -/
def addOption (secs : List (String × List (String × String))) (cur key val : String) :
    Option (List (String × List (String × String))) :=
  match secs with
  | [] => none
  | (s, kvs) :: rest =>
      if s = cur then
        if (kvs.lookup key).isSome then none
        else some ((s, kvs ++ [(key, val)]) :: rest)
      else (addOption rest cur key val).map ((s, kvs) :: ·)

/-- One pass of `RawConfigParser._read` over the stripped lines. -/
def parseINILines :
    List (List Char) → List (String × List (String × String)) → Option String →
      Option (List (String × List (String × String)))
  | [], secs, _ => some secs
  | line :: rest, secs, cur =>
      let v := pyStripC line
      if v.isEmpty then parseINILines rest secs cur
      else if v.take 1 = ['#'] || v.take 1 = [';'] then parseINILines rest secs cur
      else
        match headerOf v with
        | some h =>
            match addSection secs h with
            | none => none
            | some secs2 => parseINILines rest secs2 (some h)
        | none =>
            match cur with
            | none => none
            | some sec =>
                match v.findIdx? fun c => c = '=' || c = ':' with
                | none => none
                | some i =>
                    let key := pyLower (pyStrip ⟨v.take i⟩)
                    let val := pyStrip ⟨v.drop (i + 1)⟩
                    match addOption secs sec key val with
                    | none => none
                    | some secs2 => parseINILines rest secs2 cur

/-- `ConfigParser().read` of a whole file content. -/
def parseINI (content : String) : Option INIFile :=
  (parseINILines (splitLinesC content.data) [] none).map INIFile.mk

/-! ### The external `git` executable and the world state -/

/-- The external `git` global configuration, as far as this tool touches it:
whether the executable is on `PATH` and the logical values of `user.name`
and `user.email` (`none` = key unset). -/
structure GitState where
  present : Bool
  uname : Option String
  uemail : Option String
deriving DecidableEq, Repr

/-- Outcome of one `subprocess.run(["git", "config", "--global", key], ...)`
read: `none` models a raised `FileNotFoundError` (executable absent), and
`some (code, out)` the exit code and raw stdout.  `git` prints the value
followed by a newline on success and exits nonzero with empty stdout for an
unset key. -/
def gitReadRaw (g : GitState) (key : String) : Option (Nat × String) :=
  if g.present then
    match (if key = "user.name" then g.uname
           else if key = "user.email" then g.uemail
           else none) with
    | some v => some (0, v ++ "\n")
    | none => some (1, "")
  else none

/-- The body of `run_git_config` applied to a raw subprocess outcome: the
`try`/`except FileNotFoundError` yields `None`, a nonzero exit yields `None`,
and `value = result.stdout.strip(); return value or None`. -/
def run_git_config_raw (res : Option (Nat × String)) : Option String :=
  match res with
  | none => none
  | some (code, out) =>
      if code ≠ 0 then none
      else
        let v := pyStrip out
        if v = "" then none else some v

/-- `run_git_config(key)` from `cli.py`. -/
def run_git_config (g : GitState) (key : String) : Option String :=
  run_git_config_raw (gitReadRaw g key)

/-- The inline identity read of `gui.py` (`subprocess.run([...]).stdout.strip()
or fallback`): it ignores the exit code, substitutes the placeholder for empty
output, and has no `try`/`except`, so a missing executable propagates
`FileNotFoundError` — modelled by `none`. -/
def gui_read_identity_raw (res : Option (Nat × String)) (fallback : String) :
    Option String :=
  match res with
  | none => none
  | some (_, out) =>
      let v := pyStrip out
      some (if v = "" then fallback else v)

/-- The `gui.py` identity read against a git state. -/
def gui_read_identity (g : GitState) (key fallback : String) : Option String :=
  gui_read_identity_raw (gitReadRaw g key) fallback

/-- `git config --global user.name v` / `user.email v` (the two keys
`cmd_use` writes). -/
def GitState.setName (g : GitState) (v : String) : GitState := { g with uname := some v }

def GitState.setEmail (g : GitState) (v : String) : GitState := { g with uemail := some v }

/-- The whole observable state: the profile store, whether the store
directory exists, the `~/.gitconfig-active` snapshot file content, and the
external git configuration. -/
structure World where
  store : Store
  dirExists : Bool
  activeCfg : Option String
  git : GitState
deriving DecidableEq, Repr

/-- `ensure_config_dir()`: `os.makedirs(CONFIG_DIR, exist_ok=True)`. -/
def ensure_config_dir (w : World) : World := { w with dirExists := true }

/-- How a command invocation ends: normal completion (`main` returns 0),
`sys.exit(code)`, or an uncaught Python exception.  Each constructor carries
the world at that point. -/
inductive Outcome where
  | ok (w : World)
  | exited (code : Nat) (w : World)
  | crash (w : World)
deriving DecidableEq, Repr

/-- The world an outcome carries. -/
def Outcome.world : Outcome → World
  | .ok w => w
  | .exited _ w => w
  | .crash w => w

/-- Replace the snapshot-file content in the carried world. -/
def Outcome.withActive : Outcome → Option String → Outcome
  | .ok w, a => .ok { w with activeCfg := a }
  | .exited c w, a => .exited c { w with activeCfg := a }
  | .crash w, a => .crash { w with activeCfg := a }

/-- Python truthiness of `Optional[str]`. -/
def truthy : Option String → Bool
  | none => false
  | some s => s ≠ ""

/-! ### The six CLI commands -/

/-- `os.path.join(CONFIG_DIR, f"{name}.gitconfig")`, relative to the store. -/
def profileFileName (name : String) : String := name ++ ".gitconfig"

/-- Writing a file: replace the binding if the name exists, else add it. -/
def updateFile : List (String × String) → String → String → List (String × String)
  | [], f, c => [(f, c)]
  | (g, d) :: rest, f, c =>
      if g = f then (f, c) :: rest else (g, d) :: updateFile rest f c

/-- `cmd_use` from `cli.py`.  `copyOk` says whether the best-effort
`shutil.copy2(profile_path, ACTIVE_CFG)` succeeds or raises `OSError` (which
the source swallows).  Second component: the lines printed to `stderr`.
A `subprocess.run(["git", ...])` write with the executable absent raises
`FileNotFoundError`, which `cmd_use` does not catch. -/
def cmd_use (w0 : World) (name : String) (copyOk : Bool) : Outcome × List String :=
  let w := ensure_config_dir w0
  let fname := profileFileName name
  match w.store.lookupFile fname with
  | none =>
      (.exited 1 w,
       ["❌ Profile not found: " ++ name, "Expected file: " ++ fname])
  | some content =>
      match parseINI content with
      | none => (.crash w, [])
      | some cfg =>
          let userName := if cfg.hasSection "user" then cfg.get "user" "name" else none
          let userEmail := if cfg.hasSection "user" then cfg.get "user" "email" else none
          if truthy userName && !w.git.present then (.crash w, [])
          else
            let g1 := match userName with
              | some v => if v ≠ "" then w.git.setName v else w.git
              | none => w.git
            if truthy userEmail && !w.git.present then (.crash { w with git := g1 }, [])
            else
              let g2 := match userEmail with
                | some v => if v ≠ "" then g1.setEmail v else g1
                | none => g1
              let w2 := { w with git := g2 }
              let w3 := if copyOk then { w2 with activeCfg := some content } else w2
              (.ok w3, [])

/-- What `cmd_current` prints. -/
structure CurrentReport where
  uname : String
  uemail : String
  guess : Option String
deriving DecidableEq, Repr

/-- The best-effort guess loop of `cmd_current`: if the snapshot file exists,
walk `list_profiles()` and print the first profile whose file bytes equal the
snapshot bytes (a file that vanished is skipped by the
`except FileNotFoundError: continue`). -/
def guessActive (w : World) : Option String :=
  match w.activeCfg with
  | none => none
  | some b =>
      (list_profiles w.store).find? fun n =>
        w.store.lookupFile (profileFileName n) == some b

/-- `cmd_current` from `cli.py`. -/
def cmd_current (w0 : World) : World × CurrentReport :=
  let w := ensure_config_dir w0
  ⟨w,
   (run_git_config w.git "user.name").getD "(no name)",
   (run_git_config w.git "user.email").getD "(no email)",
   guessActive w⟩

/-- `cmd_show` from `cli.py`: second component is the raw file content
written to stdout after the header, third the `stderr` lines. -/
def cmd_show (w0 : World) (name : String) : Outcome × Option String × List String :=
  let w := ensure_config_dir w0
  match w.store.lookupFile (profileFileName name) with
  | none =>
      (.exited 1 w, none,
       ["❌ Profile not found: " ++ name, "Expected file: " ++ profileFileName name])
  | some c => (.ok w, some c, [])

/-- `input(...).strip() or default`. -/
def resolveInput (entered dflt : String) : String :=
  let s := pyStrip entered
  if s = "" then dflt else s

/-- `cmd_create` from `cli.py`.  `e1 e2 e3` are the three interactive answers
(`input()` lines, hence newline-free in any real run).  Opening an existing
*directory* named like the profile for writing raises `IsADirectoryError`. -/
def cmd_create (w0 : World) (name : String) (force activate : Bool)
    (e1 e2 e3 : String) (copyOk : Bool) : Outcome × List String :=
  let w := ensure_config_dir w0
  let fname := profileFileName name
  if ((w.store.lookupFile fname).isSome || w.store.dirs.contains fname) && !force then
    (.exited 1 w, [])
  else
    let dn := (run_git_config w.git "user.name").getD "Your Name"
    let de := (run_git_config w.git "user.email").getD "your_email@example.com"
    let v1 := resolveInput e1 dn
    let v2 := resolveInput e2 de
    let v3 := resolveInput e3 "nano"
    if w.store.dirs.contains fname then (.crash w, [])
    else
      let content := createContent v1 v2 v3
      let w2 :=
        { w with store := { w.store with files := updateFile w.store.files fname content } }
      if activate then cmd_use w2 name copyOk else (.ok w2, [])

/-- `cmd_init` from `cli.py`: only creates the directory (plus prints). -/
def cmd_init (w0 : World) : World := ensure_config_dir w0

/-- `cmd_list` from `cli.py`: the printed profile names (empty list = the
empty-store hint is printed instead). -/
def cmd_list (w0 : World) : World × List String :=
  let w := ensure_config_dir w0
  (w, list_profiles w.store)

/-! ### Theorems -/

/-- What the spec's sentence asks of `list()`: the stems of the `.gitconfig`
regular files, sorted lexicographically **by profile name** (the code instead
sorts the file names before stripping the extension). -/
def listProfilesSpec (st : Store) : List String :=
  pySort ((st.listdir.filter fun f => isProfileFileName f && st.isfile f).map splitextStem)

/-- A store holding two byte-identical profiles whose stems `a.` and `a`
order differently from their file names. -/
def c1Store : Store := ⟨[("a..gitconfig", "x"), ("a.gitconfig", "x")], []⟩

/-- C1 (counterexample): on the store with files `a..gitconfig` and
`a.gitconfig`, `list_profiles` returns `["a.", "a"]` — the stems in sorted
*file-name* order — which is not the stems sorted lexicographically by
profile name (`["a", "a."]`), so the claim as stated is false. -/
theorem C1_counterexample :
    list_profiles c1Store = ["a.", "a"] ∧
    listProfilesSpec c1Store = ["a", "a."] ∧
    list_profiles c1Store ≠ listProfilesSpec c1Store := by decide

/-- C1 (amended): `list()` returns exactly the stems of the regular files
ending in `.gitconfig`, ordered by their *file names* sorted
lexicographically; on an empty (or absent) store directory it returns the
empty list and does not fail. -/
theorem C1_list_profiles_amended (st : Store) :
    (∃ l : List String,
        l.Perm (st.listdir.filter fun f => isProfileFileName f && st.isfile f) ∧
        List.Sorted strLe l ∧
        list_profiles st = l.map splitextStem) ∧
    list_profiles ⟨[], []⟩ = [] :=
  ⟨⟨pySort _, List.perm_insertionSort _ _, List.sorted_insertionSort _ _, rfl⟩, rfl⟩

/-- C2: `use` on a profile name whose file is absent exits with code 1,
prints to the error stream, touches neither the git identity nor the
snapshot file, and leaves the store files unchanged. -/
theorem C2_use_missing_profile (w : World) (name : String) (copyOk : Bool)
    (h : w.store.lookupFile (profileFileName name) = none) :
    (∃ wfin, cmd_use w name copyOk = (.exited 1 wfin,
        ["❌ Profile not found: " ++ name, "Expected file: " ++ profileFileName name]) ∧
      wfin.git = w.git ∧ wfin.activeCfg = w.activeCfg ∧ wfin.store = w.store) ∧
    (cmd_use w name copyOk).2 ≠ [] := by
  have hu : cmd_use w name copyOk =
      (.exited 1 (ensure_config_dir w),
       ["❌ Profile not found: " ++ name, "Expected file: " ++ profileFileName name]) := by
    simp [cmd_use, ensure_config_dir, h]
  exact ⟨⟨ensure_config_dir w, hu, rfl, rfl, rfl⟩, by rw [hu]; simp⟩

/-! ### `dedent` computes the fixed profile layout -/

theorem splitLinesC_cons_nl (rest : List Char) :
    splitLinesC ('\n' :: rest) = [] :: splitLinesC rest := by
  simp [splitLinesC]

theorem splitLinesC_no_nl (l : List Char) (h : '\n' ∉ l) : splitLinesC l = [l] := by
  induction l with
  | nil => rfl
  | cons c cs ih =>
      have hc : c ≠ '\n' := fun hc => h (hc ▸ List.mem_cons_self c cs)
      have hcs : '\n' ∉ cs := fun hm => h (List.mem_cons_of_mem c hm)
      simp [splitLinesC, hc, ih hcs]

theorem splitLinesC_append_nl (l rest : List Char) (h : '\n' ∉ l) :
    splitLinesC (l ++ '\n' :: rest) = l :: splitLinesC rest := by
  induction l with
  | nil => simp [splitLinesC]
  | cons c cs ih =>
      have hc : c ≠ '\n' := fun hc => h (hc ▸ List.mem_cons_self c cs)
      have hcs : '\n' ∉ cs := fun hm => h (List.mem_cons_of_mem c hm)
      simp only [List.cons_append, splitLinesC, hc, if_false]
      rw [show cs.append ('\n' :: rest) = cs ++ '\n' :: rest from rfl, ih hcs]

theorem leadingWs_append_of_ne (p v : List Char) (hp : leadingWs p ≠ p) :
    leadingWs (p ++ v) = leadingWs p := by
  show List.takeWhile _ (p ++ v) = _
  rw [List.takeWhile_append,
      if_neg fun hlen => hp (( List.takeWhile_prefix _).eq_of_length hlen)]
  rfl

theorem isPrefixOf_append_left (p q v : List Char) (h : p.isPrefixOf q = true) :
    p.isPrefixOf (q ++ v) = true := by
  rw [ List.isPrefixOf_iff_prefix] at h ⊢
  exact h.trans (List.prefix_append q v)

theorem isWsOnlyLine_concat (B v : List Char)
    (h : (B.all fun c => c = ' ' || c = '\t') = false) :
    isWsOnlyLine (B ++ v) = false := by
  simp [isWsOnlyLine, List.all_append, h]

/-- The margin `textwrap.dedent` finds on the (blanked) lines of the
`cmd_create` template is the 8-space indent of the section headers. -/
theorem dedentMargin_create (v1 v2 v3 : List Char) :
    dedentMargin [[], "        [user]".data,
      "            name = ".data ++ v1,
      "            email = ".data ++ v2,
      "        [core]".data,
      "            editor = ".data ++ v3, []] = some "        ".data := by
  have lw1 : leadingWs ("            name = ".data ++ v1) = "            ".data := by
    rw [leadingWs_append_of_ne _ _ (by decide)]; decide
  have lw2 : leadingWs ("            email = ".data ++ v2) = "            ".data := by
    rw [leadingWs_append_of_ne _ _ (by decide)]; decide
  have lw3 : leadingWs ("            editor = ".data ++ v3) = "            ".data := by
    rw [leadingWs_append_of_ne _ _ (by decide)]; decide
  have ne1 : ("            name = ".data ++ v1).isEmpty = false := by
    rw [show "            name = ".data = ' ' :: "           name = ".data from rfl,
        List.cons_append]
    rfl
  have ne2 : ("            email = ".data ++ v2).isEmpty = false := by
    rw [show "            email = ".data = ' ' :: "           email = ".data from rfl,
        List.cons_append]
    rfl
  have ne3 : ("            editor = ".data ++ v3).isEmpty = false := by
    rw [show "            editor = ".data = ' ' :: "           editor = ".data from rfl,
        List.cons_append]
    rfl
  simp only [dedentMargin, List.foldl_cons, List.foldl_nil, List.isEmpty_nil,
    ne1, ne2, ne3, lw1, lw2, lw3,
    show (("        [user]".data : List Char)).isEmpty = false from by decide,
    show (("        [core]".data : List Char)).isEmpty = false from by decide,
    show leadingWs "        [user]".data = "        ".data from by decide,
    show leadingWs "        [core]".data = "        ".data from by decide,
    show commonPfx "        ".data "            ".data = "        ".data from by decide,
    show commonPfx "        ".data "        ".data = "        ".data from by decide,
    Bool.false_eq_true, if_false, if_true]

/-- With newline-free interpolated values, `dedent(...).lstrip("\n")` of the
`cmd_create` template is exactly the fixed section layout. -/
theorem createContent_eq_profileContent (n e ed : String)
    (h1 : '\n' ∉ n.data) (h2 : '\n' ∉ e.data) (h3 : '\n' ∉ ed.data) :
    createContent n e ed = profileContent n e ed := by
  have hraw : (createRawTemplate n e ed).data =
      '\n' :: ("        [user]".data ++ '\n' ::
        (("            name = ".data ++ n.data) ++ '\n' ::
        (("            email = ".data ++ e.data) ++ '\n' ::
        ("        [core]".data ++ '\n' ::
        (("            editor = ".data ++ ed.data) ++ '\n' ::
        "        ".data))))) := by
    have d1 : ("\n        [user]\n            name = " : String).data =
        '\n' :: ("        [user]".data ++ '\n' :: "            name = ".data) := rfl
    have d2 : ("\n            email = " : String).data =
        '\n' :: "            email = ".data := rfl
    have d3 : ("\n        [core]\n            editor = " : String).data =
        '\n' :: ("        [core]".data ++ '\n' :: "            editor = ".data) := rfl
    have d4 : ("\n        " : String).data = '\n' :: "        ".data := rfl
    simp only [createRawTemplate, String.data_append, d1, d2, d3, d4]
    simp [List.append_assoc]
  have hn1 : '\n' ∉ "            name = ".data ++ n.data := by
    intro hm
    rcases List.mem_append.mp hm with hm | hm
    · exact absurd hm (by decide)
    · exact h1 hm
  have hn2 : '\n' ∉ "            email = ".data ++ e.data := by
    intro hm
    rcases List.mem_append.mp hm with hm | hm
    · exact absurd hm (by decide)
    · exact h2 hm
  have hn3 : '\n' ∉ "            editor = ".data ++ ed.data := by
    intro hm
    rcases List.mem_append.mp hm with hm | hm
    · exact absurd hm (by decide)
    · exact h3 hm
  have hsplit : splitLinesC (createRawTemplate n e ed).data =
      [[], "        [user]".data,
       "            name = ".data ++ n.data,
       "            email = ".data ++ e.data,
       "        [core]".data,
       "            editor = ".data ++ ed.data,
       "        ".data] := by
    rw [hraw, splitLinesC_cons_nl,
        splitLinesC_append_nl _ _ (by decide),
        splitLinesC_append_nl _ _ hn1,
        splitLinesC_append_nl _ _ hn2,
        splitLinesC_append_nl _ _ (by decide),
        splitLinesC_append_nl _ _ hn3,
        splitLinesC_no_nl _ (by decide)]
  apply String.ext
  show (dedentC (createRawTemplate n e ed).data).dropWhile (· = '\n') =
    (profileContent n e ed).data
  rw [dedentC, hsplit]
  simp only [List.map_cons, List.map_nil]
  rw [show isWsOnlyLine ([] : List Char) = false from rfl]
  rw [show isWsOnlyLine "        [user]".data = false from by decide]
  rw [show isWsOnlyLine ("            name = ".data ++ n.data) = false from by
    simp [isWsOnlyLine, List.all_append]]
  rw [show isWsOnlyLine ("            email = ".data ++ e.data) = false from by
    simp [isWsOnlyLine, List.all_append]]
  rw [show isWsOnlyLine "        [core]".data = false from by decide]
  rw [show isWsOnlyLine ("            editor = ".data ++ ed.data) = false from by
    simp [isWsOnlyLine, List.all_append]]
  rw [show isWsOnlyLine "        ".data = true from by decide]
  simp only [if_false, if_true, Bool.false_eq_true]
  rw [dedentMargin_create n.data e.data ed.data]
  simp only [show (("        ".data : List Char)).isEmpty = false from by decide,
    Bool.false_eq_true, if_false]
  have dr1 : List.drop ("        ".data : List Char).length
      ("            name = ".data ++ n.data) = "    name = ".data ++ n.data := by
    rw [show (("        ".data : List Char)).length = 8 from by decide,
        List.drop_append_of_le_length (by decide)]
    have h8 : List.drop 8 "            name = ".data = "    name = ".data := by decide
    rw [h8]
  have dr2 : List.drop ("        ".data : List Char).length
      ("            email = ".data ++ e.data) = "    email = ".data ++ e.data := by
    rw [show (("        ".data : List Char)).length = 8 from by decide,
        List.drop_append_of_le_length (by decide)]
    have h8 : List.drop 8 "            email = ".data = "    email = ".data := by decide
    rw [h8]
  have dr3 : List.drop ("        ".data : List Char).length
      ("            editor = ".data ++ ed.data) = "    editor = ".data ++ ed.data := by
    rw [show (("        ".data : List Char)).length = 8 from by decide,
        List.drop_append_of_le_length (by decide)]
    have h8 : List.drop 8 "            editor = ".data = "    editor = ".data := by decide
    rw [h8]
  simp only [List.map_cons, List.map_nil,
    show ("        ".data : List Char).isPrefixOf [] = false from by decide,
    show ("        ".data : List Char).isPrefixOf "        [user]".data = true from by decide,
    show ("        ".data : List Char).isPrefixOf "        [core]".data = true from by decide,
    isPrefixOf_append_left "        ".data "            name = ".data n.data (by decide),
    isPrefixOf_append_left "        ".data "            email = ".data e.data (by decide),
    isPrefixOf_append_left "        ".data "            editor = ".data ed.data (by decide),
    dr1, dr2, dr3,
    show List.drop ("        ".data : List Char).length "        [user]".data =
      "[user]".data from by decide,
    show List.drop ("        ".data : List Char).length "        [core]".data =
      "[core]".data from by decide,
    if_true, if_false, Bool.false_eq_true]
  simp only [joinLinesC, List.nil_append]
  simp [profileContent, String.data_append, List.cons_append, List.append_assoc]

/-- C3: `use` of an existing profile whose `[user]` section defines
`name = Bob` and `email = bob@x.com` succeeds (git being available), and a
subsequent `current` reports `user.name = Bob`, `user.email = bob@x.com`. -/
theorem C3_use_then_current (w : World) (name content : String) (cfg : INIFile)
    (copyOk : Bool)
    (hf : w.store.lookupFile (profileFileName name) = some content)
    (hp : parseINI content = some cfg)
    (hs : cfg.hasSection "user" = true)
    (hn : cfg.get "user" "name" = some "Bob")
    (he : cfg.get "user" "email" = some "bob@x.com")
    (hg : w.git.present = true) :
    ∃ w1, (cmd_use w name copyOk).1 = .ok w1 ∧
      (cmd_current w1).2.uname = "Bob" ∧
      (cmd_current w1).2.uemail = "bob@x.com" := by
  have hgit : (w.git.setName "Bob").setEmail "bob@x.com" =
      ⟨true, some "Bob", some "bob@x.com"⟩ := by
    simp [GitState.setName, GitState.setEmail]
    exact hg
  cases copyOk with
  | false =>
      refine ⟨⟨w.store, true, w.activeCfg, ⟨true, some "Bob", some "bob@x.com"⟩⟩,
        ?_, rfl, rfl⟩
      simp [cmd_use, ensure_config_dir, hf, hp, hs, hn, he, hg, truthy, hgit]
  | true =>
      refine ⟨⟨w.store, true, some content, ⟨true, some "Bob", some "bob@x.com"⟩⟩,
        ?_, rfl, rfl⟩
      simp [cmd_use, ensure_config_dir, hf, hp, hs, hn, he, hg, truthy, hgit]

/-- A world whose single profile `work` is the file the spec example uses. -/
def c3World : World :=
  ⟨⟨[("work.gitconfig", "[user]\nname = Bob\nemail = bob@x.com")], []⟩,
   true, none, ⟨true, none, none⟩⟩

/-- Witness for C3 at the concrete `work` profile. -/
theorem C3_use_then_current_witness :
    (c3World.store.lookupFile (profileFileName "work") =
        some "[user]\nname = Bob\nemail = bob@x.com") ∧
    (∃ w1, (cmd_use c3World "work" true).1 = .ok w1 ∧
      (cmd_current w1).2.uname = "Bob" ∧
      (cmd_current w1).2.uemail = "bob@x.com") :=
  ⟨by decide,
   C3_use_then_current c3World "work" "[user]\nname = Bob\nemail = bob@x.com"
     ⟨[("user", [("name", "Bob"), ("email", "bob@x.com")])]⟩ true
     (by decide) (by decide) (by decide) (by decide) (by decide) rfl⟩

/-- What the spec's sentence asks of `guessActive()`: the first byte-for-byte
match **in sorted profile-name order** (the code instead walks
`list_profiles()`, whose order sorts the file names). -/
def guessActiveSpec (w : World) : Option String :=
  match w.activeCfg with
  | none => none
  | some b =>
      (pySort (list_profiles w.store)).find? fun n =>
        w.store.lookupFile (profileFileName n) == some b

/-- A world whose two profiles `a.` and `a` are byte-identical to the
snapshot; name order and file-name order pick different first matches. -/
def c4World : World :=
  ⟨⟨[("a..gitconfig", "x"), ("a.gitconfig", "x")], []⟩, true, some "x",
   ⟨true, none, none⟩⟩

/-- C4 (counterexample): with snapshot bytes `x` and byte-identical profiles
`a.` and `a`, the guess step of `current` walks `list_profiles()` (file-name
order) and prints `a.`, while the first match in sorted profile-name order is
`a` — the claim as stated is false. -/
theorem C4_counterexample :
    (cmd_current c4World).2.guess = some "a." ∧
    guessActiveSpec c4World = some "a" ∧
    (cmd_current c4World).2.guess ≠ guessActiveSpec c4World := by decide

/-- C4 (amended): if the snapshot file is absent the guess is `none`; if it
holds bytes `b`, the guess is `none` exactly when no stored profile's file
equals `b` byte-for-byte, and a guessed profile is a stored profile whose
file equals `b` such that every profile **before it in `list()` order**
(file names sorted lexicographically) does not match. -/
theorem C4_guess_amended (w : World) :
    (w.activeCfg = none → (cmd_current w).2.guess = none) ∧
    (∀ b, w.activeCfg = some b →
      (((cmd_current w).2.guess = none ↔
        ∀ n ∈ list_profiles w.store,
          w.store.lookupFile (profileFileName n) ≠ some b) ∧
       (∀ n, (cmd_current w).2.guess = some n →
         n ∈ list_profiles w.store ∧
         w.store.lookupFile (profileFileName n) = some b ∧
         ∃ pre post, list_profiles w.store = pre ++ n :: post ∧
           ∀ m ∈ pre, w.store.lookupFile (profileFileName m) ≠ some b))) := by
  have hguess : (cmd_current w).2.guess = guessActive w := rfl
  constructor
  · intro h
    rw [hguess]
    simp [guessActive, h]
  · intro b hb
    rw [hguess]
    simp only [guessActive, hb]
    constructor
    · rw [List.find?_eq_none]
      constructor
      · intro hall n hn
        have := hall n hn
        simpa using this
      · intro hall n hn
        simpa using hall n hn
    · intro n hfind
      rw [List.find?_eq_some] at hfind
      obtain ⟨hpn, pre, post, hlist, hpre⟩ := hfind
      refine ⟨by rw [hlist]; exact List.mem_append_right _ (List.mem_cons_self _ _),
        by simpa using hpn, pre, post, hlist, ?_⟩
      intro m hm
      have := hpre m hm
      simpa using this

/-- Witness for C4's amended theorem at the concrete two-profile world. -/
theorem C4_guess_amended_witness :
    c4World.activeCfg = some "x" ∧
    (∀ n, (cmd_current c4World).2.guess = some n →
      n ∈ list_profiles c4World.store ∧
      c4World.store.lookupFile (profileFileName n) = some "x" ∧
      ∃ pre post, list_profiles c4World.store = pre ++ n :: post ∧
        ∀ m ∈ pre, c4World.store.lookupFile (profileFileName m) ≠ some "x") :=
  ⟨rfl, (((C4_guess_amended c4World).2 "x" rfl).2)⟩

/-- Looking up the file just written by `updateFile` yields its content. -/
theorem lookup_updateFile (fs : List (String × String)) (f c : String) :
    List.lookup f (updateFile fs f c) = some c := by
  induction fs with
  | nil => simp [updateFile]
  | cons p rest ih =>
      obtain ⟨g, d⟩ := p
      by_cases h : g = f
      · simp [updateFile, h]
      · have hbeq : (f == g) = false := beq_eq_false_iff_ne.mpr fun hfg => h hfg.symm
        simp only [updateFile, if_neg h]
        rw [List.lookup_cons]
        simp [hbeq, ih]

/-- C5: `create` of an already-existing profile without `--force` exits
nonzero and leaves the whole store (in particular the existing file)
unchanged; with `--force` it succeeds and overwrites the file with the newly
serialized content. -/
theorem C5_create_exists (w : World) (name e1 e2 e3 content : String)
    (hf : w.store.lookupFile (profileFileName name) = some content)
    (hd : w.store.dirs.contains (profileFileName name) = false) :
    (cmd_create w name false false e1 e2 e3 false =
        (.exited 1 (ensure_config_dir w), []) ∧
      (ensure_config_dir w).store.lookupFile (profileFileName name) = some content) ∧
    (∃ w2, cmd_create w name true false e1 e2 e3 false = (.ok w2, []) ∧
      w2.store.lookupFile (profileFileName name) =
        some (createContent
          (resolveInput e1 ((run_git_config w.git "user.name").getD "Your Name"))
          (resolveInput e2 ((run_git_config w.git "user.email").getD "your_email@example.com"))
          (resolveInput e3 "nano"))) := by
  constructor
  · constructor
    · simp [cmd_create, ensure_config_dir, hf]
    · exact hf
  · refine ⟨⟨⟨updateFile w.store.files (profileFileName name)
        (createContent
          (resolveInput e1 ((run_git_config w.git "user.name").getD "Your Name"))
          (resolveInput e2 ((run_git_config w.git "user.email").getD "your_email@example.com"))
          (resolveInput e3 "nano")), w.store.dirs⟩, true, w.activeCfg, w.git⟩, ?_, ?_⟩
    · have hd' : profileFileName name ∉ w.store.dirs := by simpa using hd
      simp [cmd_create, ensure_config_dir, hf, hd, hd']
    · exact lookup_updateFile _ _ _

/-- A world for the C5 witness: profile `x` already exists. -/
def c5World : World :=
  ⟨⟨[("x.gitconfig", "old")], []⟩, true, none, ⟨true, none, none⟩⟩

/-- Witness for C5 at the concrete world with an existing `x` profile. -/
theorem C5_create_exists_witness :
    (c5World.store.lookupFile (profileFileName "x") = some "old" ∧
     c5World.store.dirs.contains (profileFileName "x") = false) ∧
    ((cmd_create c5World "x" false false "N" "E" "ED" false =
        (.exited 1 (ensure_config_dir c5World), []) ∧
      (ensure_config_dir c5World).store.lookupFile (profileFileName "x") = some "old") ∧
    (∃ w2, cmd_create c5World "x" true false "N" "E" "ED" false = (.ok w2, []) ∧
      w2.store.lookupFile (profileFileName "x") =
        some (createContent
          (resolveInput "N" ((run_git_config c5World.git "user.name").getD "Your Name"))
          (resolveInput "E" ((run_git_config c5World.git "user.email").getD "your_email@example.com"))
          (resolveInput "ED" "nano")))) :=
  ⟨⟨by decide, by decide⟩,
   C5_create_exists c5World "x" "N" "E" "ED" "old" (by decide) (by decide)⟩

/-- C6: a profile written by `create` with entered values, read back by
`show`, emits file content that is exactly the fixed section layout holding
the three resolved fields (`[user]` name/email, then `[core]` editor).
`input()` answers are single lines, hence the newline-freedom hypotheses on
the resolved values. -/
theorem C6_create_show_roundtrip (w : World) (name e1 e2 e3 : String)
    (hnew : w.store.lookupFile (profileFileName name) = none)
    (hd : w.store.dirs.contains (profileFileName name) = false)
    (hv1 : '\n' ∉ (resolveInput e1 ((run_git_config w.git "user.name").getD "Your Name")).data)
    (hv2 : '\n' ∉ (resolveInput e2 ((run_git_config w.git "user.email").getD "your_email@example.com")).data)
    (hv3 : '\n' ∉ (resolveInput e3 "nano").data) :
    ∃ w2, cmd_create w name false false e1 e2 e3 false = (.ok w2, []) ∧
      (cmd_show w2 name).1 = .ok (ensure_config_dir w2) ∧
      (cmd_show w2 name).2.1 = some (profileContent
        (resolveInput e1 ((run_git_config w.git "user.name").getD "Your Name"))
        (resolveInput e2 ((run_git_config w.git "user.email").getD "your_email@example.com"))
        (resolveInput e3 "nano")) := by
  have hd' : profileFileName name ∉ w.store.dirs := by simpa using hd
  have hl := lookup_updateFile w.store.files (profileFileName name)
    (createContent
      (resolveInput e1 ((run_git_config w.git "user.name").getD "Your Name"))
      (resolveInput e2 ((run_git_config w.git "user.email").getD "your_email@example.com"))
      (resolveInput e3 "nano"))
  refine ⟨⟨⟨updateFile w.store.files (profileFileName name)
      (createContent
        (resolveInput e1 ((run_git_config w.git "user.name").getD "Your Name"))
        (resolveInput e2 ((run_git_config w.git "user.email").getD "your_email@example.com"))
        (resolveInput e3 "nano")), w.store.dirs⟩, true, w.activeCfg, w.git⟩,
    ?_, ?_, ?_⟩
  · simp [cmd_create, ensure_config_dir, hnew, hd, hd']
  · simp [cmd_show, Store.lookupFile, ensure_config_dir, hl]
  · simp [cmd_show, Store.lookupFile, ensure_config_dir, hl]
    exact createContent_eq_profileContent _ _ _ hv1 hv2 hv3

/-- A fresh world for the C6 witness. -/
def c6World : World := ⟨⟨[], []⟩, false, none, ⟨true, some "G", none⟩⟩

/-- Witness for C6 with entered values `N`/`E`/`ED` on a fresh store. -/
theorem C6_create_show_roundtrip_witness :
    (c6World.store.lookupFile (profileFileName "p") = none ∧
     c6World.store.dirs.contains (profileFileName "p") = false ∧
     '\n' ∉ (resolveInput "N" ((run_git_config c6World.git "user.name").getD "Your Name")).data) ∧
    (∃ w2, cmd_create c6World "p" false false "N" "E" "ED" false = (.ok w2, []) ∧
      (cmd_show w2 "p").1 = .ok (ensure_config_dir w2) ∧
      (cmd_show w2 "p").2.1 = some (profileContent
        (resolveInput "N" ((run_git_config c6World.git "user.name").getD "Your Name"))
        (resolveInput "E" ((run_git_config c6World.git "user.email").getD "your_email@example.com"))
        (resolveInput "ED" "nano"))) :=
  ⟨⟨by decide, by decide, by decide⟩,
   C6_create_show_roundtrip c6World "p" "N" "E" "ED" (by decide) (by decide)
     (by decide) (by decide) (by decide)⟩

/-- The git-executable-absent external state. -/
def gitAbsent : GitState := ⟨false, none, none⟩

/-- C7 (counterexample): the graphical entry point's identity read
(`gui.py`, `subprocess.run(["git", "config", "--global",
"user.name"], ...).stdout.strip() or "(no name)"`) has no `try`/`except`:
with the executable absent the read does not degrade to the absent
placeholder but raises `FileNotFoundError` (modelled by `none`), so "never a
crash ... in both the CLI and the graphical entry point" is false. -/
theorem C7_counterexample :
    gui_read_identity gitAbsent "user.name" "(no name)" = none ∧
    gui_read_identity gitAbsent "user.name" "(no name)" ≠ some "(no name)" := by
  decide

/-- C7 (amended): in the CLI, `run_git_config` turns both a missing
executable and a nonzero exit into `None` (never an exception); in the GUI,
a read whose stdout strips to empty — in particular any failed read, which
prints nothing — degrades to the placeholder, but a missing executable
raises an uncaught `FileNotFoundError`. -/
theorem C7_getGlobal_amended :
    run_git_config_raw none = none ∧
    (∀ code out, code ≠ 0 → run_git_config_raw (some (code, out)) = none) ∧
    (∀ fb code out, pyStrip out = "" →
      gui_read_identity_raw (some (code, out)) fb = some fb) ∧
    (∀ fb, gui_read_identity_raw none fb = none) := by
  refine ⟨rfl, ?_, ?_, fun fb => rfl⟩
  · intro code out hc
    simp [run_git_config_raw, hc]
  · intro fb code out hs
    simp [gui_read_identity_raw, hs]

/-- Witness for the amended C7 at concrete reads. -/
theorem C7_getGlobal_amended_witness :
    ((1 : Nat) ≠ 0 ∧ run_git_config_raw (some (1, "oops")) = none) ∧
    (pyStrip " \n" = "" ∧
      gui_read_identity_raw (some (1, " \n")) "(no name)" = some "(no name)") :=
  ⟨⟨by decide, C7_getGlobal_amended.2.1 1 "oops" (by decide)⟩,
   ⟨by decide, C7_getGlobal_amended.2.2.1 "(no name)" 1 " \n" (by decide)⟩⟩

/-- Did the command complete normally? -/
def Outcome.isOk : Outcome → Bool
  | .ok _ => true
  | _ => false

/-- C8: the snapshot copy in `use` is best-effort: the outcome of a failing
copy is exactly the successful-copy outcome with the snapshot file restored
to its previous content (and the same printed error output); and for an
existing, parseable profile with git available, `use` completes normally
whether or not the copy fails. -/
theorem C8_snapshot_swallowed (w : World) (name : String) :
    ((cmd_use w name false).1 = (cmd_use w name true).1.withActive w.activeCfg ∧
     (cmd_use w name false).2 = (cmd_use w name true).2) ∧
    (∀ content cfg, w.store.lookupFile (profileFileName name) = some content →
      parseINI content = some cfg → w.git.present = true →
      (cmd_use w name true).1.isOk = true ∧ (cmd_use w name true).2 = [] ∧
      (cmd_use w name false).1.isOk = true ∧ (cmd_use w name false).2 = []) := by
  constructor
  · rcases hl : w.store.lookupFile (profileFileName name) with _ | content
    · constructor <;> simp [cmd_use, ensure_config_dir, hl, Outcome.withActive]
    · rcases hp : parseINI content with _ | cfg
      · constructor <;> simp [cmd_use, ensure_config_dir, hl, hp, Outcome.withActive]
      · by_cases h1 : truthy (if cfg.hasSection "user" = true then
            cfg.get "user" "name" else none) = true ∧ w.git.present = false
        · constructor <;>
            simp [cmd_use, ensure_config_dir, hl, hp, h1, Outcome.withActive]
        · by_cases h2 : truthy (if cfg.hasSection "user" = true then
              cfg.get "user" "email" else none) = true ∧ w.git.present = false
          · have hn : truthy (if cfg.hasSection "user" = true then
                cfg.get "user" "name" else none) = false := by
              by_contra hc
              exact h1 ⟨by simpa using hc, h2.2⟩
            constructor <;>
              simp [cmd_use, ensure_config_dir, hl, hp, h1, h2, hn, Outcome.withActive]
          · constructor <;>
              simp [cmd_use, ensure_config_dir, hl, hp, h1, h2, Outcome.withActive]
  · intro content cfg hf hp hg
    refine ⟨?_, ?_, ?_, ?_⟩ <;>
      simp [cmd_use, ensure_config_dir, hf, hp, hg, Outcome.isOk]

/-- A world for the C8 witness: one existing, parseable profile. -/
def c8World : World :=
  ⟨⟨[("w.gitconfig", "[user]\nname = A\n")], []⟩, true, some "old",
   ⟨true, none, none⟩⟩

/-- Witness for C8 at the concrete one-profile world. -/
theorem C8_snapshot_swallowed_witness :
    (c8World.store.lookupFile (profileFileName "w") = some "[user]\nname = A\n" ∧
     parseINI "[user]\nname = A\n" = some ⟨[("user", [("name", "A")])]⟩ ∧
     c8World.git.present = true) ∧
    ((cmd_use c8World "w" true).1.isOk = true ∧ (cmd_use c8World "w" true).2 = [] ∧
     (cmd_use c8World "w" false).1.isOk = true ∧ (cmd_use c8World "w" false).2 = []) :=
  ⟨⟨by decide, by decide, rfl⟩,
   (C8_snapshot_swallowed c8World "w").2 "[user]\nname = A\n"
     ⟨[("user", [("name", "A")])]⟩ (by decide) (by decide) rfl⟩

/-- C9: `run_git_config` maps a zero-exit read whose stdout strips to the
empty string to `None` (absent), not to the empty string. -/
theorem C9_blank_stdout_absent (s : String) (h : pyStrip s = "") :
    run_git_config_raw (some (0, s)) = none := by
  simp [run_git_config_raw, h]

/-- Witness for C9: whitespace-only stdout of a successful read. -/
theorem C9_blank_stdout_absent_witness :
    pyStrip " \n\t" = "" ∧ run_git_config_raw (some (0, " \n\t")) = none :=
  ⟨by decide, C9_blank_stdout_absent " \n\t" (by decide)⟩

theorem cmd_use_dirExists (w : World) (name : String) (copyOk : Bool) :
    (cmd_use w name copyOk).1.world.dirExists = true := by
  rcases hl : w.store.lookupFile (profileFileName name) with _ | content
  · simp [cmd_use, ensure_config_dir, hl, Outcome.world]
  · rcases hp : parseINI content with _ | cfg
    · simp [cmd_use, ensure_config_dir, hl, hp, Outcome.world]
    · by_cases h1 : truthy (if cfg.hasSection "user" = true then
          cfg.get "user" "name" else none) = true ∧ w.git.present = false
      · simp [cmd_use, ensure_config_dir, hl, hp, h1, Outcome.world]
      · by_cases h2 : truthy (if cfg.hasSection "user" = true then
            cfg.get "user" "email" else none) = true ∧ w.git.present = false
        · have hn : truthy (if cfg.hasSection "user" = true then
              cfg.get "user" "name" else none) = false := by
            by_contra hc
            exact h1 ⟨by simpa using hc, h2.2⟩
          simp [cmd_use, ensure_config_dir, hl, hp, h1, h2, hn, Outcome.world]
        · cases copyOk <;>
            simp [cmd_use, ensure_config_dir, hl, hp, h1, h2, Outcome.world]

theorem cmd_create_dirExists (w : World) (name : String) (force activate : Bool)
    (e1 e2 e3 : String) (copyOk : Bool) :
    (cmd_create w name force activate e1 e2 e3 copyOk).1.world.dirExists = true := by
  by_cases hex : ((w.store.lookupFile (profileFileName name)).isSome = true ∨
      profileFileName name ∈ w.store.dirs) ∧ force = false
  · simp [cmd_create, ensure_config_dir, hex, Outcome.world]
  · by_cases hdir : profileFileName name ∈ w.store.dirs
    · have hforce : force = true := by
        cases force with
        | false => exact absurd ⟨Or.inr hdir, rfl⟩ hex
        | true => rfl
      simp [cmd_create, ensure_config_dir, hex, hdir, hforce, Outcome.world]
    · have hisf : ¬((w.store.lookupFile (profileFileName name)).isSome = true ∧
          force = false) := fun hc => hex ⟨Or.inl hc.1, hc.2⟩
      cases activate with
      | false => simp [cmd_create, ensure_config_dir, hex, hdir, hisf, Outcome.world]
      | true =>
          have heq : (cmd_create w name force true e1 e2 e3 copyOk).1 =
              (cmd_use ⟨⟨updateFile w.store.files (profileFileName name)
                (createContent
                  (resolveInput e1 ((run_git_config w.git "user.name").getD "Your Name"))
                  (resolveInput e2 ((run_git_config w.git "user.email").getD "your_email@example.com"))
                  (resolveInput e3 "nano")), w.store.dirs⟩,
                true, w.activeCfg, w.git⟩ name copyOk).1 := by
            simp [cmd_create, ensure_config_dir, hex, hdir, hisf]
          rw [heq]
          exact cmd_use_dirExists _ _ _

/-- C10: every CLI subcommand calls `ensure_config_dir` up front, so the
world left behind by any subcommand — successful, failing, or crashing —
has the profile store directory present. -/
theorem C10_every_command_ensures_dir (w : World) (name : String)
    (force activate copyOk : Bool) (e1 e2 e3 : String) :
    (cmd_init w).dirExists = true ∧
    (cmd_list w).1.dirExists = true ∧
    (cmd_use w name copyOk).1.world.dirExists = true ∧
    (cmd_current w).1.dirExists = true ∧
    (cmd_show w name).1.world.dirExists = true ∧
    (cmd_create w name force activate e1 e2 e3 copyOk).1.world.dirExists = true := by
  refine ⟨rfl, rfl, cmd_use_dirExists w name copyOk, rfl, ?_,
    cmd_create_dirExists w name force activate e1 e2 e3 copyOk⟩
  rcases hl : w.store.lookupFile (profileFileName name) with _ | content <;>
    simp [cmd_show, ensure_config_dir, hl, Outcome.world]

/-- A one-profile world for the C2 witness. -/
def c2World : World :=
  ⟨⟨[("a.gitconfig", "x")], []⟩, true, some "snap", ⟨true, some "A", none⟩⟩

/-- Witness for C2: using the nonexistent profile `work`. -/
theorem C2_use_missing_profile_witness :
    c2World.store.lookupFile (profileFileName "work") = none ∧
    ((∃ wfin, cmd_use c2World "work" true = (.exited 1 wfin,
        ["❌ Profile not found: " ++ "work", "Expected file: " ++ profileFileName "work"]) ∧
      wfin.git = c2World.git ∧ wfin.activeCfg = c2World.activeCfg ∧
      wfin.store = c2World.store) ∧
    (cmd_use c2World "work" true).2 ≠ []) :=
  ⟨by decide, C2_use_missing_profile c2World "work" true (by decide)⟩
